import Mathlib

/-!
Verification of the core-file target backend (gdb/corelow.c).

The definitions below are a shallow embedding of the code in
src/gdb/corelow.c.  Pure helpers of the C library (atoi, sscanf "%d")
are embedded with their C semantics; the container parser (BFD) is
modelled as a record of per-section metadata plus an oracle for the
success of content reads.  Machine integers that never overflow in the
claims under study are modelled as Nat/Int.
-/

set_option autoImplicit false

/-- A ptid as built by ptid_build: (pid, lwp, tid).  null_ptid is (0,0,0). -/
structure Ptid where
  pid : Int
  lwp : Int
  tid : Int
deriving DecidableEq

/-- The null ptid (0, 0, 0). -/
def null_ptid : Ptid := ⟨0, 0, 0⟩

/-- CORELOW_PID, the arbitrary identifier for the core inferior (corelow.c line 101). -/
def CORELOW_PID : Int := 1

/-- One BFD section: name, file offset and size.  Contents are not stored;
content reads go through the read oracle of the containing CoreBfd. -/
structure Sec where
  name : String
  filepos : Nat
  size : Nat
deriving DecidableEq

/-- The opened core container (BFD).  sections is in container traversal
order, pid is bfd_core_file_pid (0 means absent), readOk is an oracle for
bfd_get_section_contents (section name, file offset within the section,
length). -/
structure CoreBfd where
  filename : String
  sections : List Sec
  pid : Int
  bigEndian : Bool
  readOk : String → Nat → Nat → Bool

/-- bfd_get_section_by_name: the first section with the given name. -/
def getSectionByName (b : CoreBfd) (nm : String) : Option Sec :=
  b.sections.find? (fun s => s.name == nm)

/-- ASCII whitespace accepted by isspace in the C locale. -/
def isSpaceChar (c : Char) : Bool :=
  c == ' ' || c == '\t' || c == '\n' || c == '\r' || c == '\x0b' || c == '\x0c'

/-- Accumulate a run of decimal digits, returning the value and the rest. -/
def digitsAcc : List Char → Nat → Nat × List Char
  | [], acc => (acc, [])
  | c :: cs, acc =>
      if c.isDigit then digitsAcc cs (acc * 10 + (c.toNat - 48)) else (acc, c :: cs)

/-- Consume one or more decimal digits; none on a non-digit head. -/
def takeDigits : List Char → Option (Nat × List Char)
  | [] => none
  | c :: cs => if c.isDigit then some (digitsAcc cs (c.toNat - 48)) else none

/-- Parse an optionally signed decimal integer after optional whitespace,
as C atoi and sscanf "%d" both do.  none when no digit is present. -/
def scanInt (cs : List Char) : Option (Int × List Char) :=
  match cs.dropWhile isSpaceChar with
  | '-' :: rest => (takeDigits rest).map (fun p => (-(p.1 : Int), p.2))
  | '+' :: rest => (takeDigits rest).map (fun p => ((p.1 : Int), p.2))
  | rest => (takeDigits rest).map (fun p => ((p.1 : Int), p.2))

/-- C atoi: optional whitespace and sign, then leading digits; 0 when no
digit is present. -/
def atoiL (cs : List Char) : Int :=
  match scanInt cs with
  | some p => p.1
  | none => 0

/-- Does the section name start with ".reg/" (corelow.c line 259)? -/
def isRegSlash (s : Sec) : Bool :=
  (".reg/".toList).isPrefixOf s.name.toList

/-- The pid used for threads: bfd_core_file_pid, or CORELOW_PID when that
is 0 (corelow.c lines 264-269). -/
def corePid (abfd : CoreBfd) : Int :=
  if abfd.pid = 0 then CORELOW_PID else abfd.pid

/-- The ptid that add_to_thread_list builds for a ".reg/<tail>" section:
pid as above, lwp = atoi of the tail after ".reg/". -/
def mkPtid (abfd : CoreBfd) (s : Sec) : Ptid :=
  ⟨corePid abfd, atoiL (s.name.toList.drop 5), 0⟩

/-- The inferior record: pid (0 = not yet appeared) and the fake_pid_p flag. -/
structure Inferior where
  pid : Int
  fake_pid_p : Bool
deriving DecidableEq

/-- The mutable state touched by the thread-building phase of core_open:
the (single) inferior, the thread registry, and inferior_ptid. -/
structure ThreadState where
  inf : Inferior
  threads : List Ptid
  inferior_ptid : Ptid
deriving DecidableEq

/-- add_to_thread_list (corelow.c lines 249-289): skip sections not named
".reg/...", atoi the tail as the lwp, resolve the pid (synthetic
CORELOW_PID with fake_pid_p when the container reports 0), make the
inferior appear on the first such section, register the thread, and make
it current when its file offset equals that of reg_sect. -/
def add_to_thread_list (abfd : CoreBfd) (asect : Sec) (reg_sect : Option Sec)
    (st : ThreadState) : ThreadState :=
  if ¬ isRegSlash asect then st
  else
    let fake_pid_p : Bool := abfd.pid == 0
    let pid := corePid abfd
    let lwpid := atoiL (asect.name.toList.drop 5)
    let st1 := if st.inf.pid = 0 then { st with inf := ⟨pid, fake_pid_p⟩ } else st
    let ptid : Ptid := ⟨pid, lwpid, 0⟩
    let st2 := { st1 with threads := st1.threads ++ [ptid] }
    match reg_sect with
    | some rs => if asect.filepos = rs.filepos then { st2 with inferior_ptid := ptid } else st2
    | none => st2

/-- bfd_map_over_sections specialised to add_to_thread_list: fold the
callback over the sections in container order. -/
def thread_map (abfd : CoreBfd) (reg_sect : Option Sec) :
    List Sec → ThreadState → ThreadState
  | [], st => st
  | s :: rest, st => thread_map abfd reg_sect rest (add_to_thread_list abfd s reg_sect st)

/-- The fallback of core_open (corelow.c lines 411-429): when no thread
became current, either create the synthetic single thread
(CORELOW_PID, 0, 0) — inferior_appeared there sets only the pid, leaving
fake_pid_p as it was — or switch to the first thread of the registry. -/
def core_open_fallback (st : ThreadState) : ThreadState :=
  if st.inferior_ptid = null_ptid then
    match st.threads.head? with
    | none =>
        ⟨⟨CORELOW_PID, st.inf.fake_pid_p⟩, [⟨CORELOW_PID, 0, 0⟩], ⟨CORELOW_PID, 0, 0⟩⟩
    | some t => { st with inferior_ptid := t }
  else st

/-- The thread-building phase of core_open (corelow.c lines 393-429):
reset the thread list and inferior_ptid, walk the sections with
add_to_thread_list against the section named ".reg", then run the
fallback when no thread became current. -/
def core_open_threads (abfd : CoreBfd) : ThreadState :=
  core_open_fallback
    (thread_map abfd (getSectionByName abfd ".reg") abfd.sections
      ⟨⟨0, false⟩, [], null_ptid⟩)

/-- A registered core handler (struct core_fns): its sniff predicate and
check-format predicate, applied to the container.  The decode-registers
function plays no role in the claims below. -/
structure CoreFns where
  sniffs : CoreBfd → Bool
  checkFormat : CoreBfd → Bool

/-- deprecated_add_core_fns (corelow.c lines 108-113): prepend the handler
to the registry, so the registry list is in traversal order of the
core_file_fns chain. -/
def deprecated_add_core_fns (cf : CoreFns) (registry : List CoreFns) : List CoreFns :=
  cf :: registry

/-- The for-loop of sniff_core_bfd (corelow.c lines 144-151): yummy is
overwritten by every accepting handler, matches counts them. -/
def sniffFold (abfd : CoreBfd) : List CoreFns → Option CoreFns × Nat → Option CoreFns × Nat
  | [], acc => acc
  | cf :: rest, acc =>
      sniffFold abfd rest (if cf.sniffs abfd then (some cf, acc.2 + 1) else acc)

/-- The outcome of a non-failing sniff: the chosen handler (none when the
architecture supersedes the registry) and the ambiguity warning, carrying
the container filename and the match count. -/
structure SniffOutcome where
  handler : Option CoreFns
  warning : Option (String × Nat)

/-- sniff_core_bfd (corelow.c lines 132-162): return no handler when the
architecture iterates over regset sections itself; otherwise walk the
registry, warn (filename, matches) when more than one handler accepts,
error with the filename when none does, and return the last accepting
handler visited. -/
def sniff_core_bfd (abfd : CoreBfd) (archIterRegsets : Bool)
    (registry : List CoreFns) : Except String SniffOutcome :=
  if archIterRegsets then .ok ⟨none, none⟩
  else
    let folded := sniffFold abfd registry (none, 0)
    if folded.2 > 1 then .ok ⟨folded.1, some (abfd.filename, folded.2)⟩
    else if folded.2 = 0 then .error abfd.filename
    else .ok ⟨folded.1, none⟩

/-- gdb_check_format (corelow.c lines 176-189): true iff some handler's
check_format accepts the container. -/
def gdb_check_format (abfd : CoreBfd) (registry : List CoreFns) : Bool :=
  registry.any (fun cf => cf.checkFormat abfd)

/-- The observable state that core_open manipulates before and during a
session: whether the core backend is pushed on the target stack, how many
container references this backend holds, whether the section table and
the cops record are allocated, and the inferior/thread registries. -/
structure GlobalState where
  targetStackHasCore : Bool
  containerRefs : Nat
  sectionTable : Bool
  copsAllocated : Bool
  inf : Inferior
  threads : List Ptid
  inferior_ptid : Ptid
deriving DecidableEq

/-- The state before an open: nothing pushed, no references, no
allocations, no inferior, no threads (target_preopen has already torn
down any previous session). -/
def cleanState : GlobalState :=
  ⟨false, 0, false, false, ⟨0, false⟩, [], null_ptid⟩

/-- core_xclose (corelow.c lines 211-238), run by the core_close_cleanup
on failing opens: null inferior_ptid, silently exit the inferior when the
saved pid was non-zero (removing it and its threads), drop the container
reference, free the section table and the cops record. -/
def core_xclose_model (s : GlobalState) : GlobalState :=
  let s1 :=
    if s.inferior_ptid.pid ≠ 0 then
      { s with inf := ⟨0, false⟩, threads := [], inferior_ptid := null_ptid }
    else { s with inferior_ptid := null_ptid }
  { s1 with containerRefs := s1.containerRefs - 1, sectionTable := false,
            copsAllocated := false }

/-- The inputs that determine core_open's control flow: the command
argument, the outcomes of the external open calls, the container, the
handler registry, whether the architecture iterates over regset sections,
and whether build_section_table succeeds. -/
structure OpenEnv where
  argGiven : Bool
  fileOpens : Bool
  bfdOpens : Bool
  bfdIsCore : Bool
  abfd : CoreBfd
  registry : List CoreFns
  archIterRegsets : Bool
  sectionTableOk : Bool

/-- The error raised by a failing core_open. -/
inductive OpenError where
  | noArg
  | openFailed
  | notACore
  | unrecognizedFormat
  | sectionTableError
deriving DecidableEq

/-- core_open (corelow.c lines 293-429) up to and including the
thread-building phase, with the cleanup-chain discipline made explicit:
missing argument and failing opens change nothing; a container that is
neither accepted as a core nor claimed by any handler's check_format is
unreferenced before the NotACore error; after the container is installed
and the cops record allocated, a sniff failure or a section-table failure
runs core_close_cleanup; on success the backend is pushed and the thread
list is built by core_open_threads. -/
def core_open_model (env : OpenEnv) (s0 : GlobalState) : GlobalState × Option OpenError :=
  if ¬ env.argGiven then (s0, some .noArg)
  else if ¬ env.fileOpens then (s0, some .openFailed)
  else if ¬ env.bfdOpens then (s0, some .openFailed)
  else
    let s1 := { s0 with containerRefs := s0.containerRefs + 1 }
    if ¬ (env.bfdIsCore || gdb_check_format env.abfd env.registry) then
      ({ s1 with containerRefs := s1.containerRefs - 1 }, some .notACore)
    else
      let s2 := { s1 with copsAllocated := true }
      match sniff_core_bfd env.abfd env.archIterRegsets env.registry with
      | .error _ => (core_xclose_model s2, some .unrecognizedFormat)
      | .ok _ =>
          let s3 := { s2 with sectionTable := true }
          if ¬ env.sectionTableOk then (core_xclose_model s3, some .sectionTableError)
          else
            let s4 := { s3 with targetStackHasCore := true }
            let ts := core_open_threads env.abfd
            ({ s4 with inf := ts.inf, threads := ts.threads,
                       inferior_ptid := ts.inferior_ptid }, none)

/-- The only regset attribute consulted by corelow.c: the
REGSET_VARIABLE_SIZE flag. -/
structure Regset where
  variableSize : Bool
deriving DecidableEq

/-- The warnings get_core_register_section can emit. -/
inductive RegWarning where
  | missing (humanName : String)
  | tooSmall (sectionName : String)
  | unexpectedSize (sectionName : String)
  | readFailed (humanName : String) (name : String)
deriving DecidableEq

/-- The effective section name: "name/<lwp>" when inferior_ptid's lwp is
non-zero, plain name otherwise (corelow.c lines 546-552). -/
def reg_section_name (name : String) (lwp : Int) : String :=
  if lwp ≠ 0 then name ++ "/" ++ toString lwp else name

/-- get_core_register_section (corelow.c lines 531-596), for a non-null
regset (the legacy regset == NULL path dereferences regset in the size
check at line 569 and is left out): returns the warnings emitted and
whether supply_regset was invoked.  Missing section: warn iff required,
no supply.  Size below min_size: warn, no supply.  Size different from
min_size without REGSET_VARIABLE_SIZE: warn, continue.  Failing content
read: warn, no supply.  Otherwise supply. -/
def get_core_register_section (abfd : CoreBfd) (lwp : Int) (regset : Regset)
    (name : String) (min_size : Nat) (human_name : String) (required : Bool) :
    List RegWarning × Bool :=
  let section_name := reg_section_name name lwp
  match getSectionByName abfd section_name with
  | none => (if required then [.missing human_name] else [], false)
  | some s =>
      if s.size < min_size then ([.tooSmall section_name], false)
      else
        let ws := if s.size ≠ min_size ∧ regset.variableSize = false then
            [.unexpectedSize section_name] else []
        if abfd.readOk section_name 0 s.size then (ws, true)
        else (ws ++ [.readFailed human_name name], false)

/-- sscanf (name, "SPU/%d/regs%n", &fd, &pos) with pos != 0 iff the match
reached past "regs" (corelow.c line 695): the literal "SPU/", then an
optionally signed decimal integer with optional leading whitespace, then
the literal "/regs"; characters after "regs" are ignored. -/
def parseSpuRegs (nm : String) : Option Int :=
  let cs := nm.toList
  if ("SPU/".toList).isPrefixOf cs then
    match scanInt (cs.drop 4) with
    | some p => if ("/regs".toList).isPrefixOf p.2 then some p.1 else none
    | none => none
  else none

/-- store_unsigned_integer over 4 bytes: the low 32 bits of the value in
the given byte order. -/
def encode4 (bigE : Bool) (v : Int) : List Nat :=
  let u := (v % (2 ^ 32 : Int)).toNat
  let b0 := u % 256
  let b1 := u / 256 % 256
  let b2 := u / 65536 % 256
  let b3 := u / 16777216 % 256
  if bigE then [b3, b2, b1, b0] else [b0, b1, b2, b3]

/-- struct spuid_list (corelow.c lines 678-685); writes records, for each
stored integer, the buffer index (pos - offset) and the four bytes
written there. -/
structure SpuidState where
  offset : Nat
  len : Nat
  pos : Nat
  written : Nat
  writes : List (Nat × List Nat)
deriving DecidableEq

/-- add_to_spuid_list (corelow.c lines 687-706): skip names not matching
SPU/<id>/regs; otherwise, when the 4-byte slot at pos lies wholly inside
[offset, offset+len), store the id's 4 bytes at buffer index pos - offset
and add 4 to written; pos advances by 4 either way. -/
def add_to_spuid_list (bigE : Bool) (st : SpuidState) (nm : String) : SpuidState :=
  match parseSpuRegs nm with
  | none => st
  | some fd =>
      let st1 :=
        if st.offset ≤ st.pos ∧ st.pos + 4 ≤ st.offset + st.len then
          { st with writes := st.writes ++ [(st.pos - st.offset, encode4 bigE fd)],
                    written := st.written + 4 }
        else st
      { st1 with pos := st1.pos + 4 }

/-- bfd_map_over_sections specialised to add_to_spuid_list, over the
section names in container order. -/
def spuid_map (bigE : Bool) : List String → SpuidState → SpuidState
  | [], st => st
  | nm :: rest, st => spuid_map bigE rest (add_to_spuid_list bigE st nm)

/-- The whole SPU-id enumeration of the null-annex branch (corelow.c
lines 902-912): walk all sections with pos starting at 0. -/
def spuid_run (abfd : CoreBfd) (offset len : Nat) : SpuidState :=
  spuid_map abfd.bigEndian (abfd.sections.map Sec.name) ⟨offset, len, 0, 0, []⟩

/-- The ids of all sections matching SPU/<id>/regs, in container order. -/
def spuIdsOf (abfd : CoreBfd) : List Int :=
  (abfd.sections.map Sec.name).filterMap parseSpuRegs

/-- Overwrite buf[i .. i + bs.length) with bs. -/
def writeAt (buf : List Nat) (i : Nat) (bs : List Nat) : List Nat :=
  buf.take i ++ bs ++ buf.drop (i + bs.length)

/-- Apply a list of (index, bytes) writes to a buffer. -/
def applyWrites (buf : List Nat) (ws : List (Nat × List Nat)) : List Nat :=
  ws.foldl (fun b w => writeAt b w.1 w.2) buf

/-- The siginfo section name: ".note.linuxcore.siginfo", suffixed with
"/<lwp>" when inferior_ptid's lwp is non-zero (corelow.c lines 717-724). -/
def siginfo_section_name (lwp : Int) : String :=
  if lwp ≠ 0 then ".note.linuxcore.siginfo/" ++ toString lwp
  else ".note.linuxcore.siginfo"

/-- get_core_siginfo (corelow.c lines 713-735): -1 when the section is
absent or the content read of len bytes at offset fails, else len. -/
def get_core_siginfo (abfd : CoreBfd) (lwp : Int) (offset len : Nat) : Int :=
  match getSectionByName abfd (siginfo_section_name lwp) with
  | none => -1
  | some _ =>
      if abfd.readOk (siginfo_section_name lwp) offset len then (len : Int) else -1

/-- The object kinds routed by core_xfer_partial's switch; other stands
for every kind it delegates to the target beneath. -/
inductive TargetObject where
  | memory
  | auxv
  | wcookie
  | libraries
  | librariesAix
  | spu
  | signalInfo
  | other
deriving DecidableEq

/-- The result of a partial transfer: TARGET_XFER_OK with the transferred
length, TARGET_XFER_EOF, TARGET_XFER_E_IO, or delegation to the target
beneath. -/
inductive XferResult where
  | ok (xferedLen : Nat)
  | eof
  | ioError
  | delegated
deriving DecidableEq

/-- The inputs of core_xfer_partial beyond the request itself: the
container, the architecture's shared-library extractors (presence and
produced lengths), and the outcome of the section-table memory read. -/
structure XferEnv where
  abfd : CoreBfd
  archLibs : Bool
  archLibsAix : Bool
  libsXfer : Nat → Nat → Nat
  libsAixXfer : Nat → Nat → Nat
  memReadResult : XferResult

/-- Modelled from the spec: section_table_xfer_memory_partial lives in
gdb/exec.c, which is not part of the sources under study.  Spec section
4.4: reads walk the section table (their outcome is the abstract
memReadResult); writes are unconditionally rejected, no write path
reaches memory here. -/
def section_table_xfer_memory (hasRead hasWrite : Bool) (memRead : XferResult) :
    XferResult :=
  if hasWrite then .ioError
  else if hasRead then memRead
  else .ioError

/-- The shared clipping pattern of the AUXV, WCOOKIE and SPU-annex
branches (corelow.c lines 754-786 etc.): E_IO when the section is absent,
EOF at or past the end, clip the length to the section, EOF on an empty
result, E_IO when the content read fails, else OK with the clipped
length. -/
def xfer_section_clipped (abfd : CoreBfd) (nm : String) (offset len : Nat) :
    XferResult :=
  match getSectionByName abfd nm with
  | none => .ioError
  | some s =>
      if s.size ≤ offset then .eof
      else
        let size := min (s.size - offset) len
        if size = 0 then .eof
        else if abfd.readOk nm offset size then .ok size
        else .ioError

/-- The TARGET_OBJECT_SPU branch (corelow.c lines 866-922): with a read
buffer and an annex, the clipped read of section SPU/<annex>; with a read
buffer and no annex, the spuid enumeration (EOF when nothing was
written); otherwise E_IO. -/
def xfer_spu_body (env : XferEnv) (annex : Option String) (hasRead : Bool)
    (offset len : Nat) : XferResult :=
  if hasRead then
    match annex with
    | some a => xfer_section_clipped env.abfd ("SPU/" ++ a) offset len
    | none =>
        let st := spuid_run env.abfd offset len
        if st.written = 0 then .eof else .ok st.written
  else .ioError

/-- The TARGET_OBJECT_LIBRARIES_AIX branch (corelow.c lines 845-864):
with the architecture extractor, E_IO on a write, else OK/EOF by the
extracted length; without it, fall through to the SPU branch. -/
def xfer_libraries_aix_body (env : XferEnv) (annex : Option String)
    (hasRead hasWrite : Bool) (offset len : Nat) : XferResult :=
  if env.archLibsAix then
    if hasWrite then .ioError
    else
      let n := env.libsAixXfer offset len
      if n = 0 then .eof else .ok n
  else xfer_spu_body env annex hasRead offset len

/-- The TARGET_OBJECT_LIBRARIES branch (corelow.c lines 824-843): with
the architecture extractor, E_IO on a write, else OK/EOF by the extracted
length; without it, fall through to the LIBRARIES_AIX branch. -/
def xfer_libraries_body (env : XferEnv) (annex : Option String)
    (hasRead hasWrite : Bool) (offset len : Nat) : XferResult :=
  if env.archLibs then
    if hasWrite then .ioError
    else
      let n := env.libsXfer offset len
      if n = 0 then .eof else .ok n
  else xfer_libraries_aix_body env annex hasRead hasWrite offset len

/-- core_xfer_partial (corelow.c lines 737-943): the switch over the
object kind.  hasRead/hasWrite state whether readbuf/writebuf are
non-null; lwp is inferior_ptid's lwp, consulted by the siginfo path. -/
def core_xfer (env : XferEnv) (lwp : Int) (object : TargetObject)
    (annex : Option String) (hasRead hasWrite : Bool) (offset len : Nat) :
    XferResult :=
  match object with
  | .memory => section_table_xfer_memory hasRead hasWrite env.memReadResult
  | .auxv =>
      if hasRead then xfer_section_clipped env.abfd ".auxv" offset len else .ioError
  | .wcookie =>
      if hasRead then xfer_section_clipped env.abfd ".wcookie" offset len else .ioError
  | .libraries => xfer_libraries_body env annex hasRead hasWrite offset len
  | .librariesAix => xfer_libraries_aix_body env annex hasRead hasWrite offset len
  | .spu => xfer_spu_body env annex hasRead offset len
  | .signalInfo =>
      if hasRead then
        if get_core_siginfo env.abfd lwp offset len > 0 then .ok len else .ioError
      else .ioError
  | .other => .delegated

/-- The last accepting handler of a registry, in traversal order. -/
def lastAccepting (abfd : CoreBfd) : List CoreFns → Option CoreFns
  | [] => none
  | cf :: rest =>
      match lastAccepting abfd rest with
      | some c => some c
      | none => if cf.sniffs abfd then some cf else none

theorem getLast?_cons_form {α : Type _} (a : α) (l : List α) :
    (a :: l).getLast? = some (l.getLast?.getD a) := by
  induction l generalizing a with
  | nil => rfl
  | cons b t ih => rw [List.getLast?_cons_cons, ih]; rfl

theorem lastAccepting_eq_getLast (abfd : CoreBfd) (fns : List CoreFns) :
    lastAccepting abfd fns = (fns.filter (fun cf => cf.sniffs abfd)).getLast? := by
  induction fns with
  | nil => rfl
  | cons cf rest ih =>
      by_cases h : cf.sniffs abfd
      · rw [List.filter_cons, if_pos (by simpa using h), getLast?_cons_form]
        rw [show lastAccepting abfd (cf :: rest)
              = match lastAccepting abfd rest with
                | some c => some c
                | none => if cf.sniffs abfd then some cf else none from rfl, ih]
        cases hl : (rest.filter (fun cf => cf.sniffs abfd)).getLast? <;> simp [h]
      · rw [List.filter_cons, if_neg (by simpa using h)]
        rw [show lastAccepting abfd (cf :: rest)
              = match lastAccepting abfd rest with
                | some c => some c
                | none => if cf.sniffs abfd then some cf else none from rfl, ih]
        cases hl : (rest.filter (fun cf => cf.sniffs abfd)).getLast? <;> simp [h]

theorem sniffFold_snd (abfd : CoreBfd) (fns : List CoreFns) :
    ∀ acc, (sniffFold abfd fns acc).2
      = acc.2 + (fns.filter (fun cf => cf.sniffs abfd)).length := by
  induction fns with
  | nil => intro acc; simp [sniffFold]
  | cons cf rest ih =>
      intro acc
      by_cases h : cf.sniffs abfd
      · simp [sniffFold, h, ih, List.filter_cons]
        omega
      · simp [sniffFold, h, ih, List.filter_cons]

theorem sniffFold_fst (abfd : CoreBfd) (fns : List CoreFns) :
    ∀ acc, (sniffFold abfd fns acc).1
      = match lastAccepting abfd fns with
        | some c => some c
        | none => acc.1 := by
  induction fns with
  | nil => intro acc; simp [sniffFold, lastAccepting]
  | cons cf rest ih =>
      intro acc
      by_cases h : cf.sniffs abfd <;>
        simp only [sniffFold, h, if_pos, if_neg, ite_true, ite_false, ih, lastAccepting] <;>
        cases hl : lastAccepting abfd rest <;> simp [h]

/-- Does section s match the ".reg" aliasing test of add_to_thread_list:
named ".reg/..." and sharing its file offset with rs? -/
def matchesReg (rs : Sec) (s : Sec) : Bool :=
  isRegSlash s && (s.filepos == rs.filepos)

/-- The last section matching rs, in container order. -/
def lastMatchSec (rs : Sec) : List Sec → Option Sec
  | [] => none
  | s :: rest =>
      match lastMatchSec rs rest with
      | some m => some m
      | none => if matchesReg rs s then some s else none

theorem corePid_ne_zero (abfd : CoreBfd) : corePid abfd ≠ 0 := by
  unfold corePid CORELOW_PID
  split <;> simp_all

theorem lastMatchSec_mem (rs : Sec) (secs : List Sec) (m : Sec) :
    lastMatchSec rs secs = some m → m ∈ secs ∧ matchesReg rs m = true := by
  induction secs with
  | nil => intro h; exact absurd h (by simp [lastMatchSec])
  | cons s rest ih =>
      intro h
      unfold lastMatchSec at h
      cases hl : lastMatchSec rs rest with
      | some x =>
          rw [hl] at h
          have hx : x = m := Option.some_inj.mp h
          obtain ⟨hm, hmm⟩ := ih (hx ▸ hl)
          exact ⟨List.mem_cons_of_mem s hm, hmm⟩
      | none =>
          rw [hl] at h
          by_cases hms : matchesReg rs s
          · rw [if_pos hms, Option.some_inj] at h
            exact ⟨h ▸ List.mem_cons_self s rest, h ▸ hms⟩
          · rw [if_neg hms] at h; exact absurd h (by simp)

theorem thread_map_threads (abfd : CoreBfd) (reg_sect : Option Sec) :
    ∀ (secs : List Sec) (st : ThreadState),
      (thread_map abfd reg_sect secs st).threads
        = st.threads ++ (secs.filter isRegSlash).map (mkPtid abfd) := by
  intro secs
  induction secs with
  | nil => intro st; simp [thread_map]
  | cons s rest ih =>
      intro st
      by_cases hs : isRegSlash s
      · have hstep : (add_to_thread_list abfd s reg_sect st).threads
            = st.threads ++ [mkPtid abfd s] := by
          unfold add_to_thread_list
          rw [if_neg (by simp [hs])]
          cases reg_sect with
          | none => by_cases hp : st.inf.pid = 0 <;> simp [hp, mkPtid]
          | some rs =>
              by_cases hp : st.inf.pid = 0 <;>
                by_cases hf : s.filepos = rs.filepos <;>
                  simp [hp, hf, mkPtid]
        rw [thread_map, ih, hstep, List.filter_cons, if_pos (by simpa using hs)]
        simp
      · have hstep : add_to_thread_list abfd s reg_sect st = st := by
          unfold add_to_thread_list
          rw [if_pos (by simp [hs])]
        rw [thread_map, hstep, ih, List.filter_cons, if_neg (by simpa using hs)]

theorem thread_map_inf (abfd : CoreBfd) (reg_sect : Option Sec) :
    ∀ (secs : List Sec) (st : ThreadState),
      (thread_map abfd reg_sect secs st).inf
        = if st.inf.pid = 0 ∧ secs.any isRegSlash = true then
            ⟨corePid abfd, abfd.pid == 0⟩
          else st.inf := by
  intro secs
  induction secs with
  | nil => intro st; simp [thread_map]
  | cons s rest ih =>
      intro st
      by_cases hs : isRegSlash s
      · have hstep : (add_to_thread_list abfd s reg_sect st).inf
            = if st.inf.pid = 0 then ⟨corePid abfd, abfd.pid == 0⟩ else st.inf := by
          unfold add_to_thread_list
          rw [if_neg (by simp [hs])]
          cases reg_sect with
          | none => by_cases hp : st.inf.pid = 0 <;> simp [hp]
          | some rs =>
              by_cases hp : st.inf.pid = 0 <;>
                by_cases hf : s.filepos = rs.filepos <;>
                  simp [hp, hf]
        rw [thread_map, ih, hstep]
        by_cases hp : st.inf.pid = 0
        · rw [if_pos hp]
          have : (⟨corePid abfd, abfd.pid == 0⟩ : Inferior).pid = 0 ∧ rest.any isRegSlash = true
              → False := fun hc => corePid_ne_zero abfd hc.1
          rw [if_neg this, if_pos ⟨hp, by simp [hs]⟩]
        · rw [if_neg hp, if_neg (fun hc => hp hc.1),
              if_neg (fun hc : st.inf.pid = 0 ∧ (s :: rest).any isRegSlash = true => hp hc.1)]
      · have hstep : add_to_thread_list abfd s reg_sect st = st := by
          unfold add_to_thread_list
          rw [if_pos (by simp [hs])]
        rw [thread_map, hstep, ih]
        have : (s :: rest).any isRegSlash = rest.any isRegSlash := by simp [hs]
        rw [this]

theorem thread_map_ptid (abfd : CoreBfd) (rs : Sec) :
    ∀ (secs : List Sec) (st : ThreadState),
      (thread_map abfd (some rs) secs st).inferior_ptid
        = match lastMatchSec rs secs with
          | some m => mkPtid abfd m
          | none => st.inferior_ptid := by
  intro secs
  induction secs with
  | nil => intro st; simp [thread_map, lastMatchSec]
  | cons s rest ih =>
      intro st
      have hstep : (add_to_thread_list abfd s (some rs) st).inferior_ptid
          = if matchesReg rs s then mkPtid abfd s else st.inferior_ptid := by
        unfold add_to_thread_list matchesReg
        by_cases hs : isRegSlash s
        · rw [if_neg (by simp [hs])]
          by_cases hp : st.inf.pid = 0 <;>
            by_cases hf : s.filepos = rs.filepos <;>
              simp [hp, hf, hs, mkPtid]
        · rw [if_pos (by simp [hs])]
          simp [hs]
      rw [thread_map, ih, hstep]
      show _ = (match lastMatchSec rs (s :: rest) with
        | some m => mkPtid abfd m
        | none => st.inferior_ptid)
      rw [show lastMatchSec rs (s :: rest)
            = match lastMatchSec rs rest with
              | some m => some m
              | none => if matchesReg rs s then some s else none from rfl]
      cases hl : lastMatchSec rs rest with
      | some m => simp
      | none => by_cases hm : matchesReg rs s <;> simp [hm]

/-- The writes the spuid enumeration performs: one 4-byte slot per id at
logical positions p, p+4, ..., kept only when the slot lies wholly inside
[offset, offset+len), at buffer index slot-position minus offset. -/
def spuWindowWrites (bigE : Bool) (offset len : Nat) : Nat → List Int → List (Nat × List Nat)
  | _, [] => []
  | p, fd :: rest =>
      (if offset ≤ p ∧ p + 4 ≤ offset + len then
        [(p - offset, encode4 bigE fd)] else [])
        ++ spuWindowWrites bigE offset len (p + 4) rest

theorem spuid_map_spec (bigE : Bool) :
    ∀ (names : List String) (st : SpuidState),
      spuid_map bigE names st =
        ⟨st.offset, st.len,
         st.pos + 4 * (names.filterMap parseSpuRegs).length,
         st.written
           + 4 * (spuWindowWrites bigE st.offset st.len st.pos
                    (names.filterMap parseSpuRegs)).length,
         st.writes ++ spuWindowWrites bigE st.offset st.len st.pos
                    (names.filterMap parseSpuRegs)⟩ := by
  intro names
  induction names with
  | nil =>
      intro st
      simp [spuid_map, spuWindowWrites]
  | cons nm rest ih =>
      intro st
      rw [spuid_map]
      cases hp : parseSpuRegs nm with
      | none =>
          have hstep : add_to_spuid_list bigE st nm = st := by
            unfold add_to_spuid_list; rw [hp]
          rw [hstep, ih]
          simp [List.filterMap_cons, hp]
      | some fd =>
          by_cases hw : st.offset ≤ st.pos ∧ st.pos + 4 ≤ st.offset + st.len
          · have hstep : add_to_spuid_list bigE st nm =
                ⟨st.offset, st.len, st.pos + 4, st.written + 4,
                 st.writes ++ [(st.pos - st.offset, encode4 bigE fd)]⟩ := by
              unfold add_to_spuid_list; rw [hp]; simp [hw]
            rw [hstep, ih]
            simp only [List.filterMap_cons, hp, spuWindowWrites, if_pos hw,
              SpuidState.mk.injEq, List.append_assoc, List.singleton_append,
              List.length_cons, true_and, and_true]
            omega
          · have hstep : add_to_spuid_list bigE st nm =
                ⟨st.offset, st.len, st.pos + 4, st.written, st.writes⟩ := by
              unfold add_to_spuid_list; rw [hp]; simp [hw]
            rw [hstep, ih]
            simp only [List.filterMap_cons, hp, spuWindowWrites, if_neg hw,
              SpuidState.mk.injEq, List.nil_append, List.length_nil,
              List.length_cons, true_and, and_true]
            omega

theorem spuWindowWrites_bounds (bigE : Bool) (offset len : Nat) :
    ∀ (ids : List Int) (p : Nat) (w : Nat × List Nat),
      w ∈ spuWindowWrites bigE offset len p ids →
        w.1 + 4 ≤ len ∧ w.2.length = 4 := by
  intro ids
  induction ids with
  | nil => intro p w h; exact absurd h (by simp [spuWindowWrites])
  | cons fd rest ih =>
      intro p w h
      rw [spuWindowWrites] at h
      rcases List.mem_append.mp h with h1 | h2
      · by_cases hw : offset ≤ p ∧ p + 4 ≤ offset + len
        · rw [if_pos hw] at h1
          rcases List.mem_singleton.mp h1 with rfl
          constructor
          · omega
          · show (encode4 bigE fd).length = 4
            unfold encode4
            split <;> rfl
        · rw [if_neg hw] at h1
          exact absurd h1 (by simp)
      · exact ih (p + 4) w h2

theorem sniffFold_fst_getLast (abfd : CoreBfd) (registry : List CoreFns) :
    (sniffFold abfd registry (none, 0)).1
      = (registry.filter (fun cf => cf.sniffs abfd)).getLast? := by
  rw [sniffFold_fst abfd registry (none, 0), lastAccepting_eq_getLast]
  cases (registry.filter (fun cf => cf.sniffs abfd)).getLast? <;> rfl

/-- Claim C2: sniff returns no handler when the architecture provides a
register-set iterator; otherwise, over the registered handler list, it
errors (naming the container) when zero sniff predicates accept, warns
with the container filename and the match count when more than one
accepts, and returns the last accepting handler in registry traversal
order. -/
theorem claim_C2_sniff_handler_selection (abfd : CoreBfd) (archIter : Bool)
    (registry : List CoreFns) :
    (archIter = true →
      sniff_core_bfd abfd archIter registry = .ok ⟨none, none⟩)
    ∧ (archIter = false →
        (registry.filter (fun cf => cf.sniffs abfd)).length = 0 →
          sniff_core_bfd abfd archIter registry = .error abfd.filename)
    ∧ (archIter = false →
        (registry.filter (fun cf => cf.sniffs abfd)).length = 1 →
          sniff_core_bfd abfd archIter registry
            = .ok ⟨(registry.filter (fun cf => cf.sniffs abfd)).getLast?, none⟩)
    ∧ (archIter = false →
        1 < (registry.filter (fun cf => cf.sniffs abfd)).length →
          sniff_core_bfd abfd archIter registry
            = .ok ⟨(registry.filter (fun cf => cf.sniffs abfd)).getLast?,
                   some (abfd.filename,
                         (registry.filter (fun cf => cf.sniffs abfd)).length)⟩) := by
  have hsnd := sniffFold_snd abfd registry (none, 0)
  have hfst := sniffFold_fst_getLast abfd registry
  refine ⟨fun h => by simp [sniff_core_bfd, h], fun h h0 => ?_, fun h h1 => ?_,
    fun h h2 => ?_⟩
  · rw [sniff_core_bfd, if_neg (by simp [h])]
    simp [hsnd, h0]
  · rw [sniff_core_bfd, if_neg (by simp [h])]
    simp [hsnd, hfst, h1]
  · rw [sniff_core_bfd, if_neg (by simp [h])]
    simp [hsnd, hfst, h2]

/-- A handler whose sniff predicate always accepts. -/
def cfAccept1 : CoreFns := ⟨fun _ => true, fun _ => false⟩

/-- A second handler whose sniff predicate always accepts. -/
def cfAccept2 : CoreFns := ⟨fun _ => true, fun _ => false⟩

/-- A container used by concrete witnesses. -/
def abfdPlain : CoreBfd := ⟨"acore", [], 0, false, fun _ _ _ => true⟩

theorem claim_C2_witness :
    sniff_core_bfd abfdPlain false [cfAccept1, cfAccept2]
      = .ok ⟨some cfAccept2, some ("acore", 2)⟩ :=
  (claim_C2_sniff_handler_selection abfdPlain false [cfAccept1, cfAccept2]).2.2.2
    rfl (by decide)

/-- Claim C1: every open that fails before the backend is pushed leaves
the observable state unchanged: no core session on the target stack, the
temporary container reference released, the section table freed, and no
inferior or thread record created by this open remaining.  This is
proved for every failing outcome of core_open, in particular for the
NotACore, UnrecognizedFormat and SectionTableError failure points. -/
theorem claim_C1_failed_open_leaves_state_unchanged (env : OpenEnv) (e : OpenError)
    (h : (core_open_model env cleanState).2 = some e) :
    (core_open_model env cleanState).1 = cleanState := by
  by_cases h1 : env.argGiven <;>
    by_cases h2 : env.fileOpens <;>
      by_cases h3 : env.bfdOpens <;>
        by_cases h4 : (env.bfdIsCore || gdb_check_format env.abfd env.registry) = true <;>
          by_cases h5 : env.sectionTableOk <;>
            cases hs : sniff_core_bfd env.abfd env.archIterRegsets env.registry <;>
              simp_all [core_open_model, core_xclose_model, cleanState, null_ptid]

/-- A container that is neither a core nor claimed by any handler. -/
def envNotACore : OpenEnv := ⟨true, true, true, false, abfdPlain, [], false, true⟩

theorem claim_C1_witness :
    (core_open_model envNotACore cleanState).1 = cleanState :=
  claim_C1_failed_open_leaves_state_unchanged envNotACore OpenError.notACore (by decide)

theorem thread_map_ptid_none (abfd : CoreBfd) :
    ∀ (secs : List Sec) (st : ThreadState),
      (thread_map abfd none secs st).inferior_ptid = st.inferior_ptid := by
  intro secs
  induction secs with
  | nil => intro st; rfl
  | cons s rest ih =>
      intro st
      rw [thread_map, ih]
      unfold add_to_thread_list
      by_cases hs : isRegSlash s
      · rw [if_neg (by simp [hs])]
        by_cases hp : st.inf.pid = 0 <;> simp [hp]
      · rw [if_pos (by simp [hs])]

theorem lastMatchSec_none_of_no_reg (rs : Sec) (secs : List Sec)
    (h : secs.any isRegSlash = false) : lastMatchSec rs secs = none := by
  induction secs with
  | nil => rfl
  | cons s rest ih =>
      simp only [List.any_cons, Bool.or_eq_false_iff] at h
      rw [show lastMatchSec rs (s :: rest)
            = (match lastMatchSec rs rest with
               | some m => some m
               | none => if matchesReg rs s then some s else none) from rfl,
          ih h.2]
      simp [matchesReg, h.1]

theorem thread_map_init_threads (abfd : CoreBfd) (reg_sect : Option Sec) :
    (thread_map abfd reg_sect abfd.sections ⟨⟨0, false⟩, [], null_ptid⟩).threads
      = (abfd.sections.filter isRegSlash).map (mkPtid abfd) := by
  rw [thread_map_threads]
  simp

theorem thread_map_init_ptid_null (abfd : CoreBfd) (reg_sect : Option Sec)
    (h : abfd.sections.any isRegSlash = false) :
    (thread_map abfd reg_sect abfd.sections ⟨⟨0, false⟩, [], null_ptid⟩).inferior_ptid
      = null_ptid := by
  cases reg_sect with
  | none => rw [thread_map_ptid_none]
  | some rs => rw [thread_map_ptid, lastMatchSec_none_of_no_reg rs _ h]

/-- The inferior produced by the thread-building phase: when at least one
".reg/..." section exists, pid is corePid and fake_pid_p records whether
the container pid was 0; otherwise the synthetic fallback inferior
(CORELOW_PID, fake_pid_p = false). -/
theorem core_open_threads_inf (abfd : CoreBfd) :
    (core_open_threads abfd).inf
      = if abfd.sections.any isRegSlash = true then
          ⟨corePid abfd, abfd.pid == 0⟩
        else ⟨CORELOW_PID, false⟩ := by
  unfold core_open_threads core_open_fallback
  by_cases hany : abfd.sections.any isRegSlash = true
  · have hinf : (thread_map abfd (getSectionByName abfd ".reg") abfd.sections
        ⟨⟨0, false⟩, [], null_ptid⟩).inf = ⟨corePid abfd, abfd.pid == 0⟩ := by
      rw [thread_map_inf]
      simp [hany]
    have hne : (thread_map abfd (getSectionByName abfd ".reg") abfd.sections
        ⟨⟨0, false⟩, [], null_ptid⟩).threads ≠ [] := by
      rw [thread_map_init_threads]
      intro hc
      rw [List.map_eq_nil_iff, List.filter_eq_nil_iff] at hc
      rw [List.any_eq_true] at hany
      obtain ⟨x, hx, hpx⟩ := hany
      exact (hc x hx) hpx
    rw [if_pos hany]
    by_cases hnull : (thread_map abfd (getSectionByName abfd ".reg") abfd.sections
        ⟨⟨0, false⟩, [], null_ptid⟩).inferior_ptid = null_ptid
    · rw [if_pos hnull]
      cases hcase : (thread_map abfd (getSectionByName abfd ".reg") abfd.sections
          ⟨⟨0, false⟩, [], null_ptid⟩).threads with
      | nil => exact absurd hcase hne
      | cons t ts => simp [hinf]
    · rw [if_neg hnull]; exact hinf
  · have hf : abfd.sections.any isRegSlash = false := by
      cases hc : abfd.sections.any isRegSlash
      · rfl
      · exact absurd hc hany
    have hinf : (thread_map abfd (getSectionByName abfd ".reg") abfd.sections
        ⟨⟨0, false⟩, [], null_ptid⟩).inf = ⟨0, false⟩ := by
      rw [thread_map_inf]
      simp [hf]
    have hthr : (thread_map abfd (getSectionByName abfd ".reg") abfd.sections
        ⟨⟨0, false⟩, [], null_ptid⟩).threads = [] := by
      rw [thread_map_init_threads, List.map_eq_nil_iff, List.filter_eq_nil_iff]
      intro a ha hpa
      have hcontra : abfd.sections.any isRegSlash = true :=
        List.any_eq_true.mpr ⟨a, ha, hpa⟩
      rw [hf] at hcontra
      exact Bool.false_ne_true hcontra
    rw [if_neg hany, if_pos (thread_map_init_ptid_null abfd _ hf), hthr]
    simp [hinf]

/-- A successful open pushes the core backend and installs the inferior,
the threads and the current ptid produced by the thread-building phase. -/
theorem core_open_success_state (env : OpenEnv) (s : GlobalState)
    (h : core_open_model env cleanState = (s, none)) :
    s.targetStackHasCore = true
    ∧ s.inf = (core_open_threads env.abfd).inf
    ∧ s.threads = (core_open_threads env.abfd).threads
    ∧ s.inferior_ptid = (core_open_threads env.abfd).inferior_ptid := by
  by_cases h1 : env.argGiven <;>
    by_cases h2 : env.fileOpens <;>
      by_cases h3 : env.bfdOpens <;>
        by_cases h4 : (env.bfdIsCore || gdb_check_format env.abfd env.registry) = true <;>
          by_cases h5 : env.sectionTableOk <;>
            cases hs : sniff_core_bfd env.abfd env.archIterRegsets env.registry <;>
              simp_all [core_open_model, core_xclose_model]
  all_goals rw [← h]; exact ⟨rfl, rfl, rfl, rfl⟩

/-- Claim C3 (amended): for every successful open exactly one inferior
exists (the model keeps the single inferior record of the session); when
at least one thread was created from a ".reg/<lwp>" section, its
fake_pid_p flag is true iff the container reports pid 0 and its pid is
the container pid (synthetic CORELOW_PID when that is 0); when no such
section exists, the fallback inferior has the synthetic pid with
fake_pid_p = false; whenever the container pid is absent (0), the
synthetic pid CORELOW_PID = 1 is used. -/
theorem claim_C3_inferior_fake_pid (env : OpenEnv) (s : GlobalState)
    (h : core_open_model env cleanState = (s, none)) :
    s.inf.pid ≠ 0
    ∧ (env.abfd.sections.any isRegSlash = true →
        s.inf = ⟨corePid env.abfd, env.abfd.pid == 0⟩)
    ∧ (env.abfd.sections.any isRegSlash = false →
        s.inf = ⟨CORELOW_PID, false⟩)
    ∧ (env.abfd.pid = 0 → s.inf.pid = CORELOW_PID) := by
  obtain ⟨-, hinf, -, -⟩ := core_open_success_state env s h
  rw [hinf, core_open_threads_inf]
  by_cases hany : env.abfd.sections.any isRegSlash = true
  · rw [if_pos hany]
    refine ⟨corePid_ne_zero env.abfd, fun _ => rfl,
      fun hc => absurd hany (by rw [hc]; exact Bool.false_ne_true), fun hp => ?_⟩
    show corePid env.abfd = CORELOW_PID
    rw [corePid, if_pos hp]
  · rw [if_neg hany]
    have h1 : (CORELOW_PID : Int) ≠ 0 := by norm_num [CORELOW_PID]
    exact ⟨h1, fun hc => absurd hc hany, fun _ => rfl, fun _ => rfl⟩

/-- A pid-less container whose only register section is the nameless
".reg": the open succeeds, yet the inferior is not flagged fake-pid. -/
def envRegOnly : OpenEnv :=
  ⟨true, true, true, true,
   ⟨"regonly", [⟨".reg", 40, 16⟩], 0, false, fun _ _ _ => true⟩,
   [], true, true⟩

/-- Counterexample to claim C3 as stated: this successful open is on a
container reporting pid 0 (second conjunct), yet the inferior's
fake_pid_p flag is false (third conjunct), because the fallback path of
core_open (no ".reg/<lwp>" section) calls inferior_appeared without
setting fake_pid_p. -/
theorem claim_C3_counterexample :
    (core_open_model envRegOnly cleanState).2 = none
    ∧ envRegOnly.abfd.pid = 0
    ∧ (core_open_model envRegOnly cleanState).1.inf.fake_pid_p = false := by
  refine ⟨by decide, by decide, by decide⟩

/-- A pid-less container with two ".reg/<lwp>" sections, ".reg" aliasing
the file offset of ".reg/18". -/
def envTwoThreads : OpenEnv :=
  ⟨true, true, true, true,
   ⟨"twothreads",
    [⟨".reg", 80, 16⟩, ⟨".reg/17", 40, 16⟩, ⟨".reg/18", 80, 16⟩],
    0, false, fun _ _ _ => true⟩,
   [], true, true⟩

theorem claim_C3_witness :
    ((core_open_model envTwoThreads cleanState).1.inf
        = ⟨corePid envTwoThreads.abfd, envTwoThreads.abfd.pid == 0⟩)
    ∧ (core_open_model envTwoThreads cleanState).1.inf.pid = CORELOW_PID :=
  ⟨((claim_C3_inferior_fake_pid envTwoThreads
      (core_open_model envTwoThreads cleanState).1 (by decide)).2.1 (by decide)),
   ((claim_C3_inferior_fake_pid envTwoThreads
      (core_open_model envTwoThreads cleanState).1 (by decide)).2.2.2 (by decide))⟩

/-- Claim C4: for every successful open on a container holding both a
section literally named ".reg" and a ".reg/<lwp>" section sharing its
file offset, the thread created from that section (the last such in
container order) is the current thread, and it is in the thread
registry. -/
theorem claim_C4_current_thread_from_reg_offset (env : OpenEnv) (s : GlobalState)
    (rs m : Sec)
    (hopen : core_open_model env cleanState = (s, none))
    (hreg : getSectionByName env.abfd ".reg" = some rs)
    (hmatch : lastMatchSec rs env.abfd.sections = some m) :
    isRegSlash m = true
    ∧ m.filepos = rs.filepos
    ∧ m ∈ env.abfd.sections
    ∧ s.inferior_ptid = mkPtid env.abfd m
    ∧ s.inferior_ptid ∈ s.threads := by
  obtain ⟨hmem, hmm⟩ := lastMatchSec_mem rs env.abfd.sections m hmatch
  obtain ⟨-, -, hthreads, hptid⟩ := core_open_success_state env s hopen
  rw [matchesReg, Bool.and_eq_true, beq_iff_eq] at hmm
  obtain ⟨hisreg, hfp⟩ := hmm
  have hp := thread_map_ptid env.abfd rs env.abfd.sections ⟨⟨0, false⟩, [], null_ptid⟩
  rw [hmatch] at hp
  have hne : mkPtid env.abfd m ≠ null_ptid := by
    intro hc
    exact corePid_ne_zero env.abfd (congrArg Ptid.pid hc)
  have hfb : core_open_threads env.abfd
      = thread_map env.abfd (some rs) env.abfd.sections ⟨⟨0, false⟩, [], null_ptid⟩ := by
    unfold core_open_threads core_open_fallback
    rw [hreg, if_neg (by rw [hp]; exact hne)]
  have hptidval : s.inferior_ptid = mkPtid env.abfd m := by
    rw [hptid, hfb]; exact hp
  refine ⟨hisreg, hfp, hmem, hptidval, ?_⟩
  rw [hptidval, hthreads, hfb, thread_map_threads]
  simp only [List.nil_append]
  exact List.mem_map_of_mem (mkPtid env.abfd) (List.mem_filter.mpr ⟨hmem, hisreg⟩)

theorem claim_C4_witness :
    (core_open_model envTwoThreads cleanState).1.inferior_ptid
        = mkPtid envTwoThreads.abfd ⟨".reg/18", 80, 16⟩
    ∧ (core_open_model envTwoThreads cleanState).1.inferior_ptid
        ∈ (core_open_model envTwoThreads cleanState).1.threads :=
  ⟨(claim_C4_current_thread_from_reg_offset envTwoThreads
      (core_open_model envTwoThreads cleanState).1 ⟨".reg", 80, 16⟩ ⟨".reg/18", 80, 16⟩
      (by decide) (by decide) (by decide)).2.2.2.1,
   (claim_C4_current_thread_from_reg_offset envTwoThreads
      (core_open_model envTwoThreads cleanState).1 ⟨".reg", 80, 16⟩ ⟨".reg/18", 80, 16⟩
      (by decide) (by decide) (by decide)).2.2.2.2⟩

/-- Claim C5 (amended): for every section whose name begins with ".reg/",
the tail after the slash is parsed with C atoi semantics (optional
whitespace and sign, then leading decimal digits; a tail with no leading
numeric part parses as 0), and a thread is created regardless, with lwp
equal to the parsed value. -/
theorem claim_C5_reg_tail_atoi (abfd : CoreBfd) (asect : Sec)
    (reg_sect : Option Sec) (st : ThreadState) (h : isRegSlash asect = true) :
    (add_to_thread_list abfd asect reg_sect st).threads
      = st.threads ++ [⟨corePid abfd, atoiL (asect.name.toList.drop 5), 0⟩] := by
  unfold add_to_thread_list
  rw [if_neg (by simp [h])]
  cases reg_sect with
  | none => by_cases hp : st.inf.pid = 0 <;> simp [hp]
  | some rs =>
      by_cases hp : st.inf.pid = 0 <;>
        by_cases hf : asect.filepos = rs.filepos <;>
          simp [hp, hf]

/-- A container whose only register section has a numeric tail. -/
def abfdNumTail : CoreBfd :=
  ⟨"numtail", [⟨".reg/7", 0, 0⟩], 4321, false, fun _ _ _ => true⟩

theorem claim_C5_witness :
    (add_to_thread_list abfdNumTail ⟨".reg/7", 0, 0⟩ none
        ⟨⟨0, false⟩, [], null_ptid⟩).threads = [⟨4321, 7, 0⟩] := by
  rw [claim_C5_reg_tail_atoi abfdNumTail ⟨".reg/7", 0, 0⟩ none
    ⟨⟨0, false⟩, [], null_ptid⟩ (by decide)]
  decide

/-- A container whose only register section has a non-numeric tail. -/
def abfdBadTail : CoreBfd :=
  ⟨"badtail", [⟨".reg/lwps", 0, 0⟩], 4321, false, fun _ _ _ => true⟩

/-- Counterexample to claim C5 as stated: the claim says a ".reg/<tail>"
section with a non-numeric tail is treated as unrecognized and creates no
thread, but add_to_thread_list parses the tail with atoi (which yields 0
for "lwps") and registers a thread (4321, 0, 0) from the section
".reg/lwps" anyway. -/
theorem claim_C5_counterexample :
    (add_to_thread_list abfdBadTail ⟨".reg/lwps", 0, 0⟩ none
        ⟨⟨0, false⟩, [], null_ptid⟩).threads = [⟨4321, 0, 0⟩] := by decide

/-- Claim C6: for every register-section read (here with a regset, as in
the architecture-iterator path): a section strictly smaller than the
declared minimum size yields a warning and no supply; a section whose
size differs from the minimum while the regset is not flagged
variable-size yields a warning but the supply still proceeds (once the
content read succeeds). -/
theorem claim_C6_register_section_size_checks (abfd : CoreBfd) (lwp : Int)
    (regset : Regset) (name : String) (min_size : Nat) (human_name : String)
    (required : Bool) (s : Sec)
    (hsec : getSectionByName abfd (reg_section_name name lwp) = some s) :
    (s.size < min_size →
      get_core_register_section abfd lwp regset name min_size human_name required
        = ([.tooSmall (reg_section_name name lwp)], false))
    ∧ (¬ s.size < min_size → s.size ≠ min_size → regset.variableSize = false →
        RegWarning.unexpectedSize (reg_section_name name lwp)
            ∈ (get_core_register_section abfd lwp regset name min_size
                human_name required).1
          ∧ (abfd.readOk (reg_section_name name lwp) 0 s.size = true →
              (get_core_register_section abfd lwp regset name min_size
                human_name required).2 = true)) := by
  constructor
  · intro hlt
    simp only [get_core_register_section]
    rw [hsec]
    simp [hlt]
  · intro hge hne hvar
    simp only [get_core_register_section]
    rw [hsec]
    constructor
    · by_cases hro : abfd.readOk (reg_section_name name lwp) 0 s.size <;>
        simp [hro, hne, hvar, hge]
    · intro hro
      simp [hro, hne, hvar, hge]

/-- A container whose ".reg2" section is larger than the declared
minimum size. -/
def abfdRegSized : CoreBfd :=
  ⟨"sized", [⟨".reg2", 0, 6⟩], 0, false, fun _ _ _ => true⟩

theorem claim_C6_witness :
    RegWarning.unexpectedSize ".reg2"
        ∈ (get_core_register_section abfdRegSized 0 ⟨false⟩ ".reg2" 4
            "floating-point" false).1
    ∧ (get_core_register_section abfdRegSized 0 ⟨false⟩ ".reg2" 4
        "floating-point" false).2 = true := by
  have h := (claim_C6_register_section_size_checks abfdRegSized 0 ⟨false⟩ ".reg2" 4
    "floating-point" false ⟨".reg2", 0, 6⟩ (by decide)).2 (by decide) (by decide) rfl
  exact ⟨h.1, h.2 (by decide)⟩

/-- Claim C7: for every xfer request carrying a write buffer (and no read
buffer), every object kind handled by the core target answers io-error;
the only exception is the default case, which is delegated to the target
beneath.  The memory case relies on the spec-modelled memory service
(section_table_xfer_memory), whose writes are unconditionally rejected. -/
theorem claim_C7_writes_rejected (env : XferEnv) (lwp : Int)
    (object : TargetObject) (annex : Option String) (offset len : Nat) :
    (object ≠ TargetObject.other →
      core_xfer env lwp object annex false true offset len = .ioError)
    ∧ core_xfer env lwp TargetObject.other annex false true offset len
        = .delegated := by
  constructor
  · intro hobj
    cases object with
    | memory => rfl
    | auxv => rfl
    | wcookie => rfl
    | libraries =>
        show xfer_libraries_body env annex false true offset len = .ioError
        unfold xfer_libraries_body xfer_libraries_aix_body xfer_spu_body
        by_cases h1 : env.archLibs <;> by_cases h2 : env.archLibsAix <;>
          simp [h1, h2]
    | librariesAix =>
        show xfer_libraries_aix_body env annex false true offset len = .ioError
        unfold xfer_libraries_aix_body xfer_spu_body
        by_cases h2 : env.archLibsAix <;> simp [h2]
    | spu => rfl
    | signalInfo => rfl
    | other => exact absurd rfl hobj
  · rfl

/-- An xfer environment over a container holding a siginfo note. -/
def envSiginfo : XferEnv :=
  ⟨⟨"sig", [⟨".note.linuxcore.siginfo", 0, 128⟩], 0, false, fun _ _ _ => true⟩,
   false, false, fun _ _ => 0, fun _ _ => 0, XferResult.eof⟩

theorem claim_C7_witness :
    core_xfer envSiginfo 0 TargetObject.memory none false true 0 16 = .ioError
    ∧ core_xfer envSiginfo 0 TargetObject.auxv none false true 0 16 = .ioError :=
  ⟨(claim_C7_writes_rejected envSiginfo 0 TargetObject.memory none 0 16).1
      (by decide),
   (claim_C7_writes_rejected envSiginfo 0 TargetObject.auxv none 0 16).1
      (by decide)⟩

/-- Claim C9 (amended): the siginfo read targets the section named
".note.linuxcore.siginfo" (suffixed "/<lwp>" for a non-zero current lwp)
for exactly the requested length at the requested offset, with no
clipping; on success with a positive requested length the reported
transferred length is the requested length; an absent section or a
failing content read yields io-error, and so does a zero-length request,
because success is detected by a strictly positive byte count. -/
theorem claim_C9_siginfo_exact_read (env : XferEnv) (lwp : Int)
    (annex : Option String) (offset len : Nat) :
    ((getSectionByName env.abfd (siginfo_section_name lwp)).isSome = true →
      env.abfd.readOk (siginfo_section_name lwp) offset len = true →
      0 < len →
      core_xfer env lwp .signalInfo annex true false offset len = .ok len)
    ∧ (getSectionByName env.abfd (siginfo_section_name lwp) = none →
        core_xfer env lwp .signalInfo annex true false offset len = .ioError)
    ∧ (env.abfd.readOk (siginfo_section_name lwp) offset len = false →
        core_xfer env lwp .signalInfo annex true false offset len = .ioError)
    ∧ (len = 0 →
        core_xfer env lwp .signalInfo annex true false offset len = .ioError) := by
  refine ⟨fun hsec hro hlen => ?_, fun hsec => ?_, fun hro => ?_, fun hlen => ?_⟩
  · obtain ⟨s, hs⟩ := Option.isSome_iff_exists.mp hsec
    show (if get_core_siginfo env.abfd lwp offset len > 0 then
        XferResult.ok len else .ioError) = .ok len
    unfold get_core_siginfo
    rw [hs]
    simp only [hro, if_true]
    rw [if_pos (by exact_mod_cast hlen)]
  · show (if get_core_siginfo env.abfd lwp offset len > 0 then
        XferResult.ok len else .ioError) = .ioError
    unfold get_core_siginfo
    rw [hsec]
    rfl
  · show (if get_core_siginfo env.abfd lwp offset len > 0 then
        XferResult.ok len else .ioError) = .ioError
    unfold get_core_siginfo
    cases hs : getSectionByName env.abfd (siginfo_section_name lwp) with
    | none => rfl
    | some s => simp [hro]
  · show (if get_core_siginfo env.abfd lwp offset len > 0 then
        XferResult.ok len else .ioError) = .ioError
    unfold get_core_siginfo
    cases hs : getSectionByName env.abfd (siginfo_section_name lwp) with
    | none => rfl
    | some s =>
        by_cases hro : env.abfd.readOk (siginfo_section_name lwp) offset len <;>
          simp [hro, hlen] <;> split <;> omega

theorem claim_C9_witness :
    core_xfer envSiginfo 0 .signalInfo none true false 8 4 = .ok 4 :=
  (claim_C9_siginfo_exact_read envSiginfo 0 none 8 4).1
    (by decide) (by decide) (by decide)

/-- Counterexample to claim C9 as stated: a zero-length read request on a
present siginfo section whose content read succeeds is not a failure, so
the claim predicts success with transferred length 0; the code instead
answers io-error, because it treats only a strictly positive returned
count as success. -/
theorem claim_C9_counterexample :
    core_xfer envSiginfo 0 .signalInfo none true false 0 0 = .ioError
    ∧ (getSectionByName envSiginfo.abfd (siginfo_section_name 0)).isSome = true
    ∧ envSiginfo.abfd.readOk (siginfo_section_name 0) 0 0 = true := by decide

/-- What claim C8 as stated predicts for the Spu null-annex bytes: the
ascending enumeration of the ids, concatenated as 4-byte integers in
container byte order, clipped bytewise to the requested window. -/
def spec_spu_bytes_ascending (abfd : CoreBfd) (offset len : Nat) : List Nat :=
  ((((spuIdsOf abfd).insertionSort (· ≤ ·)).flatMap
      (encode4 abfd.bigEndian)).drop offset).take len

/-- Claim C8 (amended): for every xfer of object Spu with a null annex,
the writes performed into the read buffer are exactly the 4-byte
encodings, in the container's byte order, of the ids of the sections
matching SPU/<id>/regs taken in container section order (not sorted);
the id at position k occupies the slot [4k, 4k+4), is emitted only when
that slot lies wholly inside [offset, offset+length), and lands at
buffer index 4k - offset; when nothing is written the result is eof,
else ok with the number of bytes written. -/
theorem claim_C8_spu_enumeration (env : XferEnv) (offset len : Nat) :
    (spuid_run env.abfd offset len).writes
      = spuWindowWrites env.abfd.bigEndian offset len 0 (spuIdsOf env.abfd)
    ∧ core_xfer env 0 .spu none true false offset len
      = (if (spuid_run env.abfd offset len).written = 0 then .eof
         else .ok (spuid_run env.abfd offset len).written) := by
  constructor
  · rw [spuid_run, spuid_map_spec]
    simp [spuIdsOf]
  · rfl

/-- A container holding SPU/7/regs before SPU/3/regs, plus an unrelated
SPU memory section. -/
def abfdSpu : CoreBfd :=
  ⟨"spucore",
   [⟨"SPU/7/regs", 0, 32⟩, ⟨"SPU/3/regs", 64, 32⟩, ⟨"SPU/3/mem", 128, 32⟩],
   0, true, fun _ _ _ => true⟩

/-- Counterexample to claim C8 as stated: the claim announces the ids in
ascending order, but the code emits them in container section order.  On
a container whose sections are SPU/7/regs then SPU/3/regs, the buffer
after the enumeration holds 7 then 3, not the ascending 3 then 7. -/
theorem claim_C8_counterexample :
    applyWrites (List.replicate 8 0) ((spuid_run abfdSpu 0 8).writes)
      = [0, 0, 0, 7, 0, 0, 0, 3]
    ∧ spec_spu_bytes_ascending abfdSpu 0 8 = [0, 0, 0, 3, 0, 0, 0, 7]
    ∧ applyWrites (List.replicate 8 0) ((spuid_run abfdSpu 0 8).writes)
      ≠ spec_spu_bytes_ascending abfdSpu 0 8 := by decide

/-- Claim C10: in the Spu null-annex enumeration the logical position
advances by 4 for every matching section, the number of bytes written is
4 times the number of emitted slots (hence always a multiple of 4), and
every write is a whole 4-byte slot landing entirely inside the window —
an id whose slot does not fit is skipped, never split. -/
theorem claim_C10_spuid_all_or_nothing (abfd : CoreBfd) (offset len : Nat) :
    (spuid_run abfd offset len).pos = 4 * (spuIdsOf abfd).length
    ∧ (spuid_run abfd offset len).written
        = 4 * (spuid_run abfd offset len).writes.length
    ∧ (spuid_run abfd offset len).writes.all
        (fun w => decide (w.1 + 4 ≤ len) && (w.2.length == 4)) = true := by
  rw [spuid_run, spuid_map_spec]
  refine ⟨by simp [spuIdsOf], by simp, ?_⟩
  rw [List.all_eq_true]
  intro w hw
  simp only [List.nil_append] at hw
  obtain ⟨h1, h2⟩ := spuWindowWrites_bounds abfd.bigEndian offset len _ 0 w hw
  simp [h1, h2]
